import Mathlib

/-!
Verification development for the Antminer telemetry backends
(`pyasic/miners/backends/antminer.py`): a shallow embedding of the
per-field extractors of the two dialects (`AntminerModern`, `AntminerOld`),
their legacy offset resolvers, and the fault-light state machine.

Python dynamic values are modelled by `PyVal` (floats as exact rationals),
raised exceptions by `PyErr` via `Except`, and transport calls by
`Option PyVal` parameters (`Option.none` means the call raised `APIError`).
-/

set_option autoImplicit false

namespace Pyasic

/-- A Python value as it appears in RPC/web response payloads.
Numbers (int and float alike) are modelled as exact rationals;
dicts are string-keyed association lists. -/
inductive PyVal where
  | none
  | bool (b : Bool)
  | num (q : ℚ)
  | str (s : String)
  | list (xs : List PyVal)
  | dict (kvs : List (String × PyVal))

/-- The exception kinds the backend code raises or catches.
`apiError` stands for pyasic's `APIError` (transport failure). -/
inductive PyErr where
  | keyError
  | indexError
  | typeError
  | valueError
  | attributeError
  | zeroDivisionError
  | apiError
  deriving DecidableEq, Repr

/-- Python `LookupError` = `KeyError` or `IndexError`. -/
def PyErr.isLookup : PyErr → Bool
  | PyErr.keyError => true
  | PyErr.indexError => true
  | _ => false

/-- The exception tuple `(IndexError, KeyError, ValueError, TypeError)`
caught by `AntminerOld._get_hashboards`. -/
def PyErr.oldCaught : PyErr → Bool
  | PyErr.keyError => true
  | PyErr.indexError => true
  | PyErr.valueError => true
  | PyErr.typeError => true
  | _ => false

/-- Python truthiness of a value. -/
def pyTruthy : PyVal → Bool
  | PyVal.none => false
  | PyVal.bool b => b
  | PyVal.num q => decide (q ≠ 0)
  | PyVal.str s => decide (s ≠ "")
  | PyVal.list xs => !xs.isEmpty
  | PyVal.dict kvs => !kvs.isEmpty

/-- Python `v == 0` (`False == 0` is `True`; non-numbers compare unequal). -/
def pyEqZero : PyVal → Bool
  | PyVal.num q => decide (q = 0)
  | PyVal.bool b => !b
  | _ => false

/-- Python `v == s` for a string literal `s`. -/
def pyEqStr (v : PyVal) (s : String) : Bool :=
  match v with
  | PyVal.str t => t == s
  | _ => false

/-- Python `v == {}` (used by `AntminerOld._is_mining`). -/
def pyEqEmptyDict : PyVal → Bool
  | PyVal.dict kvs => kvs.isEmpty
  | _ => false

/-- First-match lookup in a string-keyed dict. -/
def dictLookup (kvs : List (String × PyVal)) (k : String) : Option PyVal :=
  match kvs with
  | [] => Option.none
  | (a, v) :: rest => if a = k then some v else dictLookup rest k

/-- Negative Python indices count from the end of the list. -/
def pyNormIdx (i : Int) (n : Nat) : Int :=
  if i < 0 then i + n else i

/-- Python list-index normalisation: an int-valued subscript (negatives count
from the end, bools are 0/1), `IndexError` outside the range, `TypeError`
for non-integers. On success the returned index is `< n`. -/
def pyListIdx (v : PyVal) (n : Nat) : Except PyErr Nat :=
  match v with
  | PyVal.num q =>
    if q.den = 1 then
      if 0 ≤ pyNormIdx q.num n ∧ pyNormIdx q.num n < (n : Int) then
        Except.ok (pyNormIdx q.num n).toNat
      else Except.error PyErr.indexError
    else Except.error PyErr.typeError
  | PyVal.bool b =>
    if (if b then 1 else 0) < n then Except.ok (if b then 1 else 0)
    else Except.error PyErr.indexError
  | _ => Except.error PyErr.typeError

/-- Python subscript `v[k]`.  (String subscripts are not used by the
embedded code and are modelled as `TypeError`.) -/
def pySub (v k : PyVal) : Except PyErr PyVal :=
  match v with
  | PyVal.dict kvs =>
    match k with
    | PyVal.str s =>
      match dictLookup kvs s with
      | some x => Except.ok x
      | Option.none => Except.error PyErr.keyError
    | PyVal.list _ => Except.error PyErr.typeError
    | PyVal.dict _ => Except.error PyErr.typeError
    | _ => Except.error PyErr.keyError
  | PyVal.list xs =>
    match pyListIdx k xs.length with
    | Except.ok j => Except.ok (xs.getD j PyVal.none)
    | Except.error e => Except.error e
  | _ => Except.error PyErr.typeError

/-- Python `v.get(k, dflt)`: `AttributeError` when `v` is not a dict. -/
def pyGet (v : PyVal) (k : String) (dflt : PyVal) : Except PyErr PyVal :=
  match v with
  | PyVal.dict kvs => Except.ok ((dictLookup kvs k).getD dflt)
  | _ => Except.error PyErr.attributeError

/-- Python `len(v)`. -/
def pyLen : PyVal → Except PyErr Nat
  | PyVal.list xs => Except.ok xs.length
  | PyVal.dict kvs => Except.ok kvs.length
  | PyVal.str s => Except.ok s.length
  | _ => Except.error PyErr.typeError

/-- Python iteration (`for x in v`): lists yield elements, dicts their keys. -/
def pyIter : PyVal → Except PyErr (List PyVal)
  | PyVal.list xs => Except.ok xs
  | PyVal.dict kvs => Except.ok (kvs.map (fun kv => PyVal.str kv.fst))
  | _ => Except.error PyErr.typeError

/-- Numeric coercion for arithmetic (`TypeError` on non-numbers;
bools count as 0/1). -/
def pyNumVal : PyVal → Except PyErr ℚ
  | PyVal.num q => Except.ok q
  | PyVal.bool b => Except.ok (if b then 1 else 0)
  | _ => Except.error PyErr.typeError

/-- Python `sum(xs)` over payload values. -/
def pySumQ : List PyVal → Except PyErr ℚ
  | [] => Except.ok 0
  | x :: xs =>
    match pyNumVal x with
    | Except.error e => Except.error e
    | Except.ok q =>
      match pySumQ xs with
      | Except.error e => Except.error e
      | Except.ok s => Except.ok (q + s)

/-- Python `round(q)`: nearest integer, ties to even. -/
def pyRound0 (q : ℚ) : Int :=
  let f : Int := ⌊q⌋
  let r : ℚ := q - (f : ℚ)
  if r < 1 / 2 then f
  else if 1 / 2 < r then f + 1
  else if f % 2 = 0 then f else f + 1

/-- Python `round(q, 2)`: rounding to two decimal places, ties to even. -/
def pyRound2 (q : ℚ) : ℚ :=
  ((pyRound0 (q * 100) : ℚ)) / 100

/-- Python `round(v)` applied to a payload value. -/
def pyRoundInt (v : PyVal) : Except PyErr Int :=
  match pyNumVal v with
  | Except.error e => Except.error e
  | Except.ok q => Except.ok (pyRound0 q)

/-- Digit-string accumulator for numeric parsing. -/
def parseDigitsAux : List Char → Nat → Option Nat
  | [], acc => some acc
  | c :: cs, acc =>
    if c.isDigit then parseDigitsAux cs (acc * 10 + (c.toNat - 48)) else Option.none

/-- Unsigned decimal literal (`"15"`, `"15."`, `".5"`, `"15.5"`), as accepted
by Python `float`; exponent forms are not used by the embedded code. -/
def parseUnsignedDecimal (cs : List Char) : Option ℚ :=
  let ip := cs.takeWhile Char.isDigit
  let rest := cs.dropWhile Char.isDigit
  match rest with
  | [] =>
    if ip.isEmpty then Option.none
    else (parseDigitsAux ip 0).map (fun n => (n : ℚ))
  | c :: frac =>
    if c = '.' then
      if frac.all Char.isDigit && decide (0 < ip.length + frac.length) then
        match parseDigitsAux ip 0, parseDigitsAux frac 0 with
        | some n, some f => some ((n : ℚ) + (f : ℚ) / ((10 : ℚ) ^ frac.length))
        | _, _ => Option.none
      else Option.none
    else Option.none

/-- Python `float(v)` (`ValueError` on unparsable strings, `TypeError`
on non-numeric non-string values). -/
def pyFloat : PyVal → Except PyErr ℚ
  | PyVal.num q => Except.ok q
  | PyVal.bool b => Except.ok (if b then 1 else 0)
  | PyVal.str s =>
    (match s.toList with
     | '-' :: rest => ((parseUnsignedDecimal rest).map Neg.neg)
     | '+' :: rest => parseUnsignedDecimal rest
     | cs => parseUnsignedDecimal cs).elim (Except.error PyErr.valueError) Except.ok
  | _ => Except.error PyErr.typeError

/-- Python `int(v)`: truncation toward zero for numbers, base-10 parse for
strings, `TypeError` otherwise. -/
def pyInt : PyVal → Except PyErr Int
  | PyVal.num q => Except.ok (if 0 ≤ q then ⌊q⌋ else ⌈q⌉)
  | PyVal.bool b => Except.ok (if b then 1 else 0)
  | PyVal.str s =>
    (match s.toList with
     | '-' :: rest =>
       if rest.isEmpty then Option.none
       else (parseDigitsAux rest 0).map (fun n => -(n : Int))
     | '+' :: rest =>
       if rest.isEmpty then Option.none
       else (parseDigitsAux rest 0).map (fun n => (n : Int))
     | cs =>
       if cs.isEmpty then Option.none
       else (parseDigitsAux cs 0).map (fun n => (n : Int))).elim
      (Except.error PyErr.valueError) Except.ok
  | _ => Except.error PyErr.typeError

/-- Python `v > 0` (`TypeError` for non-numbers, bools count as 0/1). -/
def pyGtZero : PyVal → Except PyErr Bool
  | PyVal.num q => Except.ok (decide (0 < q))
  | PyVal.bool b => Except.ok b
  | _ => Except.error PyErr.typeError

/-- The argument/fallback pattern shared by the extractors:
`if not arg: try: arg = await transport() except APIError: pass`.
`transport = Option.none` models the transport call raising `APIError`. -/
def fetchIfFalsy (arg : PyVal) (transport : Option PyVal) : PyVal :=
  if pyTruthy arg then arg
  else
    match transport with
    | some v => v
    | Option.none => arg

/-- Modelled from the spec: the `HashBoard` record of `pyasic.data`
(not under `src/`); §3 gives its fields, that raw payload values are stored
as read, and that `missing` defaults to true and flips false only on
confirmed presence. Unset fields are `Option.none`. -/
structure HashBoard where
  slot : Int := 0
  chips : Option PyVal := Option.none
  expected_chips : Option Int := Option.none
  hashrate : Option ℚ := Option.none
  temp : Option ℚ := Option.none
  chip_temp : Option ℚ := Option.none
  serial_number : Option PyVal := Option.none
  missing : Bool := true

/-- Modelled from the spec: the `Fan` record of `pyasic.data`
(not under `src/`); §3: `{speed: integer RPM, default 0}`. -/
structure Fan where
  speed : PyVal := PyVal.num 0

/-- Default element used with `List.getD` over hashboard lists. -/
def hbDefault : HashBoard := {}

/-- Outcome of a Python loop body that mutates state: either it finished
or an exception was raised with the mutations so far retained. -/
inductive LoopRes (σ : Type) where
  | done (s : σ)
  | raised (s : σ) (e : PyErr)

/-- The state carried by a loop outcome (mutations persist past a raise). -/
def LoopRes.state {σ : Type} : LoopRes σ → σ
  | LoopRes.done s => s
  | LoopRes.raised s _ => s

/-! ## AntminerModern extractors -/

/-- `AntminerModern._get_mac`: web `get_system_info` payload (argument or
refetched), `macaddr` key with a `KeyError` guard, then a fallback
`get_network_info` call guarded only by `except KeyError` — a transport
`APIError` from that call is not caught. -/
def AntminerModern.getMac (web_get_system_info : PyVal)
    (sysinfo_transport netinfo_transport : Option PyVal) : Except PyErr PyVal :=
  let info := fetchIfFalsy web_get_system_info sysinfo_transport
  let firstTry : Except PyErr (Option PyVal) :=
    if pyTruthy info then
      match pySub info (PyVal.str "macaddr") with
      | Except.ok v => Except.ok (some v)
      | Except.error PyErr.keyError => Except.ok Option.none
      | Except.error e => Except.error e
    else Except.ok Option.none
  match firstTry with
  | Except.error e => Except.error e
  | Except.ok (some v) => Except.ok v
  | Except.ok Option.none =>
    match netinfo_transport with
    | Option.none => Except.error PyErr.apiError
    | some data =>
      if pyTruthy data then
        match pySub data (PyVal.str "macaddr") with
        | Except.ok v => Except.ok v
        | Except.error PyErr.keyError => Except.ok PyVal.none
        | Except.error e => Except.error e
      else Except.ok PyVal.none

/-- `hashboards[board["index"]]`: the index expression of the assignment
target in `AntminerModern._get_hashboards`. -/
def boardIndex (board : PyVal) (n : Nat) : Except PyErr Nat :=
  match pySub board (PyVal.str "index") with
  | Except.error e => Except.error e
  | Except.ok v => pyListIdx v n

/-- One assignment `hashboards[board["index"]].field = rhs` once the
right-hand side has been evaluated (Python evaluates the assignment target
after the right-hand side). -/
def setBoardField (hbs : List HashBoard) (board : PyVal)
    (upd : HashBoard → HashBoard) : Except PyErr (List HashBoard) :=
  match boardIndex board hbs.length with
  | Except.error e => Except.error e
  | Except.ok j => Except.ok (hbs.set j (upd (hbs.getD j hbDefault)))

/-- Statement wrapper: evaluate the right-hand side, then perform the
indexed field assignment. -/
def stmtSet (hbs : List HashBoard) (board : PyVal)
    (rhs : Except PyErr (HashBoard → HashBoard)) : Except PyErr (List HashBoard) :=
  match rhs with
  | Except.error e => Except.error e
  | Except.ok upd => setBoardField hbs board upd

/-- `hashboards[board["index"]].hashrate = round(board["rate_real"] / 1000, 2)`. -/
def stmtHashrate (hbs : List HashBoard) (board : PyVal) : Except PyErr (List HashBoard) :=
  stmtSet hbs board
    (match pySub board (PyVal.str "rate_real") with
     | Except.error e => Except.error e
     | Except.ok v =>
       match pyNumVal v with
       | Except.error e => Except.error e
       | Except.ok q => Except.ok (fun hb => { hb with hashrate := some (pyRound2 (q / 1000)) }))

/-- `hashboards[board["index"]].chips = board["asic_num"]`. -/
def stmtChips (hbs : List HashBoard) (board : PyVal) : Except PyErr (List HashBoard) :=
  stmtSet hbs board
    (match pySub board (PyVal.str "asic_num") with
     | Except.error e => Except.error e
     | Except.ok v => Except.ok (fun hb => { hb with chips := some v }))

/-- `sum(data) / len(data)` after `data = list(filter(lambda x: not x == 0, arr))`:
the all-zero case divides by zero. -/
def avgNonZero (xs : List PyVal) : Except PyErr ℚ :=
  let data := xs.filter (fun x => !(pyEqZero x))
  match pySumQ data with
  | Except.error e => Except.error e
  | Except.ok s =>
    if data.length = 0 then Except.error PyErr.zeroDivisionError
    else Except.ok (s / (data.length : ℚ))

/-- `board_temp_data = list(filter(...)); hashboards[...].temp = sum(...) / len(...)`. -/
def stmtTempPcb (hbs : List HashBoard) (board : PyVal) : Except PyErr (List HashBoard) :=
  match pySub board (PyVal.str "temp_pcb") with
  | Except.error e => Except.error e
  | Except.ok arr =>
    match pyIter arr with
    | Except.error e => Except.error e
    | Except.ok xs =>
      stmtSet hbs board
        (match avgNonZero xs with
         | Except.error e => Except.error e
         | Except.ok a => Except.ok (fun hb => { hb with temp := some a }))

/-- `chip_temp_data = list(filter(...)); hashboards[...].chip_temp = sum(...) / len(...)`. -/
def stmtTempChip (hbs : List HashBoard) (board : PyVal) : Except PyErr (List HashBoard) :=
  match pySub board (PyVal.str "temp_chip") with
  | Except.error e => Except.error e
  | Except.ok arr =>
    match pyIter arr with
    | Except.error e => Except.error e
    | Except.ok xs =>
      stmtSet hbs board
        (match avgNonZero xs with
         | Except.error e => Except.error e
         | Except.ok a => Except.ok (fun hb => { hb with chip_temp := some a }))

/-- `hashboards[board["index"]].serial_number = board["sn"]`. -/
def stmtSerial (hbs : List HashBoard) (board : PyVal) : Except PyErr (List HashBoard) :=
  stmtSet hbs board
    (match pySub board (PyVal.str "sn") with
     | Except.error e => Except.error e
     | Except.ok v => Except.ok (fun hb => { hb with serial_number := some v }))

/-- `hashboards[board["index"]].missing = False`. -/
def stmtMissing (hbs : List HashBoard) (board : PyVal) : Except PyErr (List HashBoard) :=
  stmtSet hbs board (Except.ok (fun hb => { hb with missing := false }))

/-- The loop body of `AntminerModern._get_hashboards` for one chain record;
on a raise the mutations already performed are kept. -/
def modernBoardStep (hbs : List HashBoard) (board : PyVal) : LoopRes (List HashBoard) :=
  match stmtHashrate hbs board with
  | Except.error e => LoopRes.raised hbs e
  | Except.ok h1 =>
    match stmtChips h1 board with
    | Except.error e => LoopRes.raised h1 e
    | Except.ok h2 =>
      match stmtTempPcb h2 board with
      | Except.error e => LoopRes.raised h2 e
      | Except.ok h3 =>
        match stmtTempChip h3 board with
        | Except.error e => LoopRes.raised h3 e
        | Except.ok h4 =>
          match stmtSerial h4 board with
          | Except.error e => LoopRes.raised h4 e
          | Except.ok h5 =>
            match stmtMissing h5 board with
            | Except.error e => LoopRes.raised h5 e
            | Except.ok h6 => LoopRes.done h6

/-- `for board in api_stats["STATS"][0]["chain"]: ...` -/
def modernChainLoop : List HashBoard → List PyVal → LoopRes (List HashBoard)
  | hbs, [] => LoopRes.done hbs
  | hbs, b :: rest =>
    match modernBoardStep hbs b with
    | LoopRes.raised s e => LoopRes.raised s e
    | LoopRes.done s => modernChainLoop s rest

/-- `api_stats["STATS"][0]["chain"]` as an iterable. -/
def modernChain (api_stats : PyVal) : Except PyErr (List PyVal) :=
  match pySub api_stats (PyVal.str "STATS") with
  | Except.error e => Except.error e
  | Except.ok s =>
    match pySub s (PyVal.num 0) with
    | Except.error e => Except.error e
    | Except.ok s0 =>
      match pySub s0 (PyVal.str "chain") with
      | Except.error e => Except.error e
      | Except.ok c => pyIter c

/-- `AntminerModern._get_hashboards`: builds `expected_hashboards` default
boards, fetches stats (an `APIError` returns the defaults), walks the chain
records under an `except LookupError` guard. -/
def AntminerModern.getHashboards (expected_hashboards : Nat) (expected_chips : Option Int)
    (stats_transport : Option PyVal) : Except PyErr (List HashBoard) :=
  let hashboards : List HashBoard := (List.range expected_hashboards).map
    (fun (idx : Nat) => { slot := (idx : Int), expected_chips := expected_chips })
  match stats_transport with
  | Option.none => Except.ok hashboards
  | some api_stats =>
    if pyTruthy api_stats then
      match modernChain api_stats with
      | Except.error e =>
        if e.isLookup then Except.ok hashboards else Except.error e
      | Except.ok records =>
        match modernChainLoop hashboards records with
        | LoopRes.done hbs => Except.ok hbs
        | LoopRes.raised hbs e =>
          if e.isLookup then Except.ok hbs else Except.error e
    else Except.ok hashboards

/-- `AntminerModern.fault_light_on`: send blink-enable (unguarded), flip the
cached light to `True` only when the body carries the sentinel `code == "B000"`,
and return the cached light. The result is the new cached state. -/
def AntminerModern.faultLightOn (light : PyVal) (blink_transport : Option PyVal) :
    Except PyErr PyVal :=
  match blink_transport with
  | Option.none => Except.error PyErr.apiError
  | some data =>
    if pyTruthy data then
      match pyGet data "code" PyVal.none with
      | Except.error e => Except.error e
      | Except.ok c =>
        if pyEqStr c "B000" then Except.ok (PyVal.bool true) else Except.ok light
    else Except.ok light

/-- `AntminerModern._get_fault_light`: short-circuits on a truthy cached
light; otherwise fetches blink status (if no argument payload), stores
`["blink"]` under an `except KeyError` guard, returns the cached light.
Result: (returned value, new cached light, whether a blink-status query
was issued). -/
def AntminerModern.getFaultLight (light : PyVal) (web_get_blink_status : PyVal)
    (blinkstatus_transport : Option PyVal) : Except PyErr (PyVal × PyVal × Bool) :=
  if pyTruthy light then Except.ok (light, light, false)
  else
    let queried := !(pyTruthy web_get_blink_status)
    let resp := fetchIfFalsy web_get_blink_status blinkstatus_transport
    if pyTruthy resp then
      match pySub resp (PyVal.str "blink") with
      | Except.ok v => Except.ok (v, v, queried)
      | Except.error PyErr.keyError => Except.ok (light, light, queried)
      | Except.error e => Except.error e
    else Except.ok (light, light, queried)

/-- `AntminerModern._get_expected_hashrate`: reads
`api_stats["STATS"][1]["total_rateideal"]` and `["rate_unit"]`
(default `"GH"`), converts by the unit table, with `except (KeyError,
IndexError)` around the block. -/
def AntminerModern.getExpectedHashrate (api_stats : PyVal)
    (stats_transport : Option PyVal) : Except PyErr (Option ℚ) :=
  let stats := fetchIfFalsy api_stats stats_transport
  if pyTruthy stats then
    match (match pySub stats (PyVal.str "STATS") with
           | Except.error e => Except.error e
           | Except.ok s => pySub s (PyVal.num 1)) with
    | Except.error e => if e.isLookup then Except.ok Option.none else Except.error e
    | Except.ok s1 =>
      match pySub s1 (PyVal.str "total_rateideal") with
      | Except.error e => if e.isLookup then Except.ok Option.none else Except.error e
      | Except.ok rv =>
        match (match pySub s1 (PyVal.str "rate_unit") with
               | Except.error PyErr.keyError => Except.ok (PyVal.str "GH")
               | other => other) with
        | Except.error e => if e.isLookup then Except.ok Option.none else Except.error e
        | Except.ok u =>
          if pyEqStr u "GH" then
            match pyNumVal rv with
            | Except.error e => Except.error e
            | Except.ok q => Except.ok (some (pyRound2 (q / 1000)))
          else if pyEqStr u "MH" then
            match pyNumVal rv with
            | Except.error e => Except.error e
            | Except.ok q => Except.ok (some (pyRound2 (q / 1000000)))
          else
            match pyNumVal rv with
            | Except.error e => Except.error e
            | Except.ok q => Except.ok (some (pyRound2 q))
  else Except.ok Option.none

/-! ## AntminerOld extractors and the legacy offset resolvers -/

/-- One probe of the legacy offset resolvers:
`f = stats.get(key); f and not f == 0` for `key = pfx + str k`. -/
def probeHit (d : List (String × PyVal)) (pfx : String) (k : Int) : Bool :=
  let v := (dictLookup d (pfx ++ toString k)).getD PyVal.none
  pyTruthy v && !(pyEqZero v)

/-- The board offset scan of `AntminerOld._get_hashboards`:
`for board_num in range(1, 16, 5): for _b_num in range(5): ...`, first hit
wins via the `board_offset == -1` guard, default offset 1. -/
def resolveBoardOffsetD (d : List (String × PyVal)) : Int :=
  let off := [1, 6, 11].foldl (fun (acc : Int) (board_num : Int) =>
    (List.range 5).foldl (fun (acc2 : Int) (bn : Nat) =>
      if probeHit d "chain_acn" (board_num + (bn : Int)) && (acc2 == -1)
      then board_num else acc2) acc) (-1)
  if off == -1 then 1 else off

/-- The fan offset scan of `AntminerOld._get_fans`:
`for fan_num in range(1, 8, 4): for _f_num in range(4): ...`; a hit stores
`fan_num + 2`, default offset 3. -/
def resolveFanOffsetD (d : List (String × PyVal)) : Int :=
  let off := [1, 5].foldl (fun (acc : Int) (fan_num : Int) =>
    (List.range 4).foldl (fun (acc2 : Int) (fn : Nat) =>
      if probeHit d "fan" (fan_num + (fn : Int)) && (acc2 == -1)
      then fan_num + 2 else acc2) acc) (-1)
  if off == -1 then 3 else off

/-- The resolvers probe via `.get`, which raises `AttributeError` when the
flat `STATS[1]` entry is not a dict. -/
def resolveBoardOffset (stats1 : PyVal) : Except PyErr Int :=
  match stats1 with
  | PyVal.dict d => Except.ok (resolveBoardOffsetD d)
  | _ => Except.error PyErr.attributeError

/-- Fan analogue of `resolveBoardOffset`. -/
def resolveFanOffset (stats1 : PyVal) : Except PyErr Int :=
  match stats1 with
  | PyVal.dict d => Except.ok (resolveFanOffsetD d)
  | _ => Except.error PyErr.attributeError

/-- Follows the spec's words for the resolver algorithm: the first candidate
start offset (in scan order) whose probe window contains at least one
truthy non-zero value. -/
def firstNonZeroCandidate (d : List (String × PyVal)) (pfx : String)
    (cands : List Int) (window : Nat) : Option Int :=
  cands.find? (fun (c : Int) => (List.range window).any (fun (p : Nat) => probeHit d pfx (c + (p : Int))))

/-- Body of `AntminerOld._get_fans` inside its `try`: resolve the fan offset,
then `fans_data[fan].speed = stats["STATS"][1].get(f"fan{offset+fan}", 0)`
for each expected fan. -/
def oldFansBody (stats : PyVal) (expected_fans : Nat) : Except PyErr (List Fan) :=
  match pySub stats (PyVal.str "STATS") with
  | Except.error e => Except.error e
  | Except.ok s =>
    match pySub s (PyVal.num 1) with
    | Except.error e => Except.error e
    | Except.ok stats1 =>
      match resolveFanOffset stats1 with
      | Except.error e => Except.error e
      | Except.ok off =>
        match stats1 with
        | PyVal.dict d =>
          Except.ok ((List.range expected_fans).map (fun fan =>
            { speed := (dictLookup d ("fan" ++ toString (off + (fan : Int)))).getD (PyVal.num 0) }))
        | _ => Except.error PyErr.attributeError

/-- `AntminerOld._get_fans`: default fans, then the body under
`except (KeyError, IndexError)`. -/
def AntminerOld.getFans (expected_fans : Nat) (api_stats : PyVal)
    (stats_transport : Option PyVal) : Except PyErr (List Fan) :=
  let stats := fetchIfFalsy api_stats stats_transport
  let fans_data : List Fan := (List.range expected_fans).map (fun _ => {})
  if pyTruthy stats then
    match oldFansBody stats expected_fans with
    | Except.ok fs => Except.ok fs
    | Except.error PyErr.keyError => Except.ok fans_data
    | Except.error PyErr.indexError => Except.ok fans_data
    | Except.error e => Except.error e
  else Except.ok fans_data

/-- One iteration of the board loop of `AntminerOld._get_hashboards` for raw
key suffix `i`: a fresh `HashBoard(slot=i-board_offset, ...)` whose fields
are filled from `temp{i}`, `temp2_{i}`, `chain_rate{i}`, `chain_acn{i}`.
No field is read back after being written, so the sequential mutations are
collected into one record. -/
def oldBoardStep (stats1 : PyVal) (board_offset : Int) (expected_chips : Option Int)
    (i : Int) : Except PyErr HashBoard :=
  match pyGet stats1 ("temp" ++ toString i) PyVal.none with
  | Except.error e => Except.error e
  | Except.ok chip_temp =>
    match (if pyTruthy chip_temp
           then (pyRoundInt chip_temp).map (fun r => some ((r : ℚ)))
           else Except.ok Option.none) with
    | Except.error e => Except.error e
    | Except.ok ctv =>
      match pyGet stats1 ("temp2_" ++ toString i) PyVal.none with
      | Except.error e => Except.error e
      | Except.ok temp =>
        match (if pyTruthy temp
               then (pyRoundInt temp).map (fun r => some ((r : ℚ)))
               else Except.ok Option.none) with
        | Except.error e => Except.error e
        | Except.ok tv =>
          match pyGet stats1 ("chain_rate" ++ toString i) PyVal.none with
          | Except.error e => Except.error e
          | Except.ok hashrate =>
            match (if pyTruthy hashrate
                   then (pyFloat hashrate).map (fun q => some (pyRound2 (q / 1000)))
                   else Except.ok Option.none) with
            | Except.error e => Except.error e
            | Except.ok hv =>
              match pyGet stats1 ("chain_acn" ++ toString i) PyVal.none with
              | Except.error e => Except.error e
              | Except.ok chips =>
                match (if pyTruthy chips
                       then (pyGtZero chips).map (fun g => !g)
                       else Except.ok true) with
                | Except.error e => Except.error e
                | Except.ok miss =>
                  Except.ok
                    { slot := i - board_offset
                      expected_chips := expected_chips
                      chip_temp := ctv
                      temp := tv
                      hashrate := hv
                      chips := if pyTruthy chips then some chips else Option.none
                      serial_number := Option.none
                      missing := miss }

/-- `for i in range(board_offset, board_offset + expected_hashboards): ...`,
iterated as `i = board_offset + k` for `k` in `range(expected_hashboards)`;
each completed iteration appends its board, a raise keeps the boards
appended so far. -/
def oldBoardsLoop (stats1 : PyVal) (board_offset : Int) (expected_chips : Option Int) :
    List HashBoard → List Nat → LoopRes (List HashBoard)
  | hbs, [] => LoopRes.done hbs
  | hbs, k :: rest =>
    match oldBoardStep stats1 board_offset expected_chips (board_offset + (k : Int)) with
    | Except.error e => LoopRes.raised hbs e
    | Except.ok hb => oldBoardsLoop stats1 board_offset expected_chips (hbs ++ [hb]) rest

/-- Body of `AntminerOld._get_hashboards` inside its `try`:
`boards = api_stats["STATS"]`, the `len(boards) > 1` gate, the offset scan,
then the extraction loop. -/
def oldHashboardsBody (stats : PyVal) (expected_hashboards : Nat)
    (expected_chips : Option Int) : LoopRes (List HashBoard) :=
  match pySub stats (PyVal.str "STATS") with
  | Except.error e => LoopRes.raised [] e
  | Except.ok boards =>
    match pyLen boards with
    | Except.error e => LoopRes.raised [] e
    | Except.ok n =>
      if n > 1 then
        match pySub boards (PyVal.num 1) with
        | Except.error e => LoopRes.raised [] e
        | Except.ok stats1 =>
          match resolveBoardOffset stats1 with
          | Except.error e => LoopRes.raised [] e
          | Except.ok board_offset =>
            oldBoardsLoop stats1 board_offset expected_chips [] (List.range expected_hashboards)
      else LoopRes.done []

/-- `AntminerOld._get_hashboards`: starts from an empty list, fetches stats
(an `APIError` leaves the falsy argument), runs the body under
`except (IndexError, KeyError, ValueError, TypeError)`. -/
def AntminerOld.getHashboards (expected_hashboards : Nat) (expected_chips : Option Int)
    (api_stats : PyVal) (stats_transport : Option PyVal) : Except PyErr (List HashBoard) :=
  let stats := fetchIfFalsy api_stats stats_transport
  if pyTruthy stats then
    match oldHashboardsBody stats expected_hashboards expected_chips with
    | LoopRes.done hbs => Except.ok hbs
    | LoopRes.raised hbs e =>
      if e.oldCaught then Except.ok hbs else Except.error e
  else Except.ok []

/-- `AntminerOld._is_mining`: web config (`int(conf["bitmain-work-mode"]) == 1`
under `except LookupError` — a `ValueError`/`TypeError` from `int()`
propagates), then an RPC summary fallback whose non-empty-dict test decides
the result; `None` when everything is unavailable. -/
def AntminerOld.isMining (web_get_conf : PyVal)
    (conf_transport summary_transport : Option PyVal) : Except PyErr PyVal :=
  let conf := fetchIfFalsy web_get_conf conf_transport
  let firstTry : Except PyErr (Option PyVal) :=
    if pyTruthy conf then
      match pySub conf (PyVal.str "bitmain-work-mode") with
      | Except.error PyErr.keyError => Except.ok Option.none
      | Except.error PyErr.indexError => Except.ok Option.none
      | Except.error e => Except.error e
      | Except.ok v =>
        match pyInt v with
        | Except.error e => Except.error e
        | Except.ok m => Except.ok (some (PyVal.bool (!(m == 1))))
    else Except.ok Option.none
  match firstTry with
  | Except.error e => Except.error e
  | Except.ok (some v) => Except.ok v
  | Except.ok Option.none =>
    match summary_transport with
    | Option.none => Except.ok PyVal.none
    | some api_summary => Except.ok (PyVal.bool (!(pyEqEmptyDict api_summary)))

/-! ## Generic list helpers -/

theorem getD_eq_of_lt {α : Type} (l : List α) (d : α) {j : Nat} (h : j < l.length) :
    l.getD j d = l[j] := by
  rw [List.getD_eq_getElem?_getD, List.getElem?_eq_getElem h, Option.getD_some]

theorem getD_mem {α : Type} {l : List α} {j : Nat} (d : α) (h : j < l.length) :
    l.getD j d ∈ l := by
  rw [getD_eq_of_lt l d h]
  exact List.getElem_mem h

theorem getD_set_self {α : Type} (l : List α) (j : Nat) (b d : α) (h : j < l.length) :
    (l.set j b).getD j d = b := by
  have hj : j < (l.set j b).length := by simpa using h
  rw [getD_eq_of_lt _ d hj, List.getElem_set_self]

theorem getD_of_le {α : Type} (l : List α) (d : α) {j : Nat} (h : l.length ≤ j) :
    l.getD j d = d := by
  rw [List.getD_eq_getElem?_getD, List.getElem?_eq_none h, Option.getD_none]

/-! ## Index lemmas -/

theorem pyListIdx_lt {v : PyVal} {n j : Nat} (h : pyListIdx v n = Except.ok j) : j < n := by
  cases v with
  | num q =>
    simp only [pyListIdx] at h
    split at h
    · split at h
      · rename_i hrange
        cases h
        omega
      · exact nomatch h
    · exact nomatch h
  | bool b =>
    cases b with
    | false =>
      simp only [pyListIdx, Bool.false_eq_true, if_false, if_true, ite_true, ite_false] at h
      split at h
      · rename_i hlt
        cases h
        omega
      · exact nomatch h
    | true =>
      simp only [pyListIdx, if_true, ite_true, eq_self_iff_true] at h
      split at h
      · rename_i hlt
        cases h
        omega
      · exact nomatch h
  | none => exact nomatch h
  | str s => exact nomatch h
  | list xs => exact nomatch h
  | dict kvs => exact nomatch h

theorem boardIndex_lt {board : PyVal} {n j : Nat}
    (h : boardIndex board n = Except.ok j) : j < n := by
  unfold boardIndex at h
  split at h
  · exact nomatch h
  · exact pyListIdx_lt h

/-! ## Invariants of `AntminerModern._get_hashboards` -/

/-- A board marked non-missing has had both its chip count and its serial
number stored by the extraction loop. -/
def chipsSerialSet (hb : HashBoard) : Prop :=
  hb.missing = false → hb.chips.isSome ∧ hb.serial_number.isSome

/-- `chipsSerialSet` for every board in a list. -/
def PallCS (l : List HashBoard) : Prop := ∀ hb ∈ l, chipsSerialSet hb

/-- Field updates that leave `missing`, `chips`, `serial_number` untouched. -/
def updKeeps (upd : HashBoard → HashBoard) : Prop :=
  ∀ hb, (upd hb).missing = hb.missing ∧ (upd hb).chips = hb.chips ∧
    (upd hb).serial_number = hb.serial_number

theorem setBoardField_ok {hbs : List HashBoard} {board : PyVal}
    {upd : HashBoard → HashBoard} {l : List HashBoard}
    (h : setBoardField hbs board upd = Except.ok l) :
    ∃ j, boardIndex board hbs.length = Except.ok j ∧ j < hbs.length ∧
      l = hbs.set j (upd (hbs.getD j hbDefault)) := by
  unfold setBoardField at h
  split at h
  · exact nomatch h
  · rename_i j hj
    cases h
    exact ⟨j, hj, boardIndex_lt hj, rfl⟩

theorem stmtSet_ok {hbs : List HashBoard} {board : PyVal}
    {rhs : Except PyErr (HashBoard → HashBoard)} {l : List HashBoard}
    (h : stmtSet hbs board rhs = Except.ok l) :
    ∃ upd j, rhs = Except.ok upd ∧ boardIndex board hbs.length = Except.ok j ∧
      j < hbs.length ∧ l = hbs.set j (upd (hbs.getD j hbDefault)) := by
  unfold stmtSet at h
  split at h
  · exact nomatch h
  · rename_i upd
    obtain ⟨j, hj, hlt, rfl⟩ := setBoardField_ok h
    exact ⟨upd, j, rfl, hj, hlt, rfl⟩

theorem stmtHashrate_shape {hbs : List HashBoard} {board : PyVal} {l : List HashBoard}
    (h : stmtHashrate hbs board = Except.ok l) :
    ∃ upd j, updKeeps upd ∧ boardIndex board hbs.length = Except.ok j ∧
      j < hbs.length ∧ l = hbs.set j (upd (hbs.getD j hbDefault)) := by
  unfold stmtHashrate at h
  obtain ⟨upd, j, hrhs, hj, hlt, rfl⟩ := stmtSet_ok h
  refine ⟨upd, j, ?_, hj, hlt, rfl⟩
  split at hrhs
  · exact nomatch hrhs
  · split at hrhs
    · exact nomatch hrhs
    · cases hrhs
      intro hb
      exact ⟨rfl, rfl, rfl⟩

theorem stmtTempPcb_shape {hbs : List HashBoard} {board : PyVal} {l : List HashBoard}
    (h : stmtTempPcb hbs board = Except.ok l) :
    ∃ upd j, updKeeps upd ∧ boardIndex board hbs.length = Except.ok j ∧
      j < hbs.length ∧ l = hbs.set j (upd (hbs.getD j hbDefault)) := by
  unfold stmtTempPcb at h
  split at h
  · exact nomatch h
  · split at h
    · exact nomatch h
    · obtain ⟨upd, j, hrhs, hj, hlt, rfl⟩ := stmtSet_ok h
      refine ⟨upd, j, ?_, hj, hlt, rfl⟩
      split at hrhs
      · exact nomatch hrhs
      · cases hrhs
        intro hb
        exact ⟨rfl, rfl, rfl⟩

theorem stmtTempChip_shape {hbs : List HashBoard} {board : PyVal} {l : List HashBoard}
    (h : stmtTempChip hbs board = Except.ok l) :
    ∃ upd j, updKeeps upd ∧ boardIndex board hbs.length = Except.ok j ∧
      j < hbs.length ∧ l = hbs.set j (upd (hbs.getD j hbDefault)) := by
  unfold stmtTempChip at h
  split at h
  · exact nomatch h
  · split at h
    · exact nomatch h
    · obtain ⟨upd, j, hrhs, hj, hlt, rfl⟩ := stmtSet_ok h
      refine ⟨upd, j, ?_, hj, hlt, rfl⟩
      split at hrhs
      · exact nomatch hrhs
      · cases hrhs
        intro hb
        exact ⟨rfl, rfl, rfl⟩

theorem stmtChips_shape {hbs : List HashBoard} {board : PyVal} {l : List HashBoard}
    (h : stmtChips hbs board = Except.ok l) :
    ∃ v j, boardIndex board hbs.length = Except.ok j ∧ j < hbs.length ∧
      l = hbs.set j { hbs.getD j hbDefault with chips := some v } := by
  unfold stmtChips at h
  obtain ⟨upd, j, hrhs, hj, hlt, rfl⟩ := stmtSet_ok h
  split at hrhs
  · exact nomatch hrhs
  · rename_i v _
    cases hrhs
    exact ⟨v, j, hj, hlt, rfl⟩

theorem stmtSerial_shape {hbs : List HashBoard} {board : PyVal} {l : List HashBoard}
    (h : stmtSerial hbs board = Except.ok l) :
    ∃ v j, boardIndex board hbs.length = Except.ok j ∧ j < hbs.length ∧
      l = hbs.set j { hbs.getD j hbDefault with serial_number := some v } := by
  unfold stmtSerial at h
  obtain ⟨upd, j, hrhs, hj, hlt, rfl⟩ := stmtSet_ok h
  split at hrhs
  · exact nomatch hrhs
  · rename_i v _
    cases hrhs
    exact ⟨v, j, hj, hlt, rfl⟩

theorem stmtMissing_shape {hbs : List HashBoard} {board : PyVal} {l : List HashBoard}
    (h : stmtMissing hbs board = Except.ok l) :
    ∃ j, boardIndex board hbs.length = Except.ok j ∧ j < hbs.length ∧
      l = hbs.set j { hbs.getD j hbDefault with missing := false } := by
  unfold stmtMissing at h
  obtain ⟨upd, j, hrhs, hj, hlt, rfl⟩ := stmtSet_ok h
  cases hrhs
  exact ⟨j, hj, hlt, rfl⟩

theorem pall_getD {hbs : List HashBoard} (hP : PallCS hbs) (j : Nat) :
    chipsSerialSet (hbs.getD j hbDefault) := by
  by_cases hj : j < hbs.length
  · exact hP _ (getD_mem hbDefault hj)
  · rw [getD_of_le hbs hbDefault (Nat.le_of_not_lt hj)]
    intro hm
    exact nomatch hm

theorem pall_set_elem {hbs : List HashBoard} {j : Nat} {nb : HashBoard}
    (hP : PallCS hbs) (hnb : chipsSerialSet nb) : PallCS (hbs.set j nb) := by
  intro hb hmem
  rcases List.mem_or_eq_of_mem_set hmem with hmem2 | rfl
  · exact hP _ hmem2
  · exact hnb

theorem updKeeps_chipsSerialSet {upd : HashBoard → HashBoard} (hk : updKeeps upd)
    (hb : HashBoard) (h : chipsSerialSet hb) : chipsSerialSet (upd hb) := by
  intro hm
  obtain ⟨hm1, hm2, hm3⟩ := hk hb
  rw [hm1] at hm
  obtain ⟨hc, hs⟩ := h hm
  rw [hm2, hm3]
  exact ⟨hc, hs⟩

theorem modernBoardStep_inv (hbs : List HashBoard) (b : PyVal)
    {res : LoopRes (List HashBoard)} (h : modernBoardStep hbs b = res)
    (hP : PallCS hbs) :
    res.state.length = hbs.length ∧ PallCS res.state := by
  unfold modernBoardStep at h
  split at h
  · subst h
    exact ⟨rfl, hP⟩
  · rename_i h1 heq1
    obtain ⟨u1, j1, hk1, hb1, hl1, he1⟩ := stmtHashrate_shape heq1
    have len1 : h1.length = hbs.length := by rw [he1]; simp
    have hP1 : PallCS h1 := by
      rw [he1]
      exact pall_set_elem hP (updKeeps_chipsSerialSet hk1 _ (pall_getD hP j1))
    split at h
    · subst h
      exact ⟨len1, hP1⟩
    · rename_i h2 heq2
      obtain ⟨v, j2, hb2, hl2, he2⟩ := stmtChips_shape heq2
      have hb2n : boardIndex b hbs.length = Except.ok j2 := by rwa [len1] at hb2
      have len2 : h2.length = hbs.length := by rw [he2]; simp [len1]
      have hP2 : PallCS h2 := by
        rw [he2]
        refine pall_set_elem hP1 ?_
        intro hm
        exact ⟨rfl, ((pall_getD hP1 j2) hm).2⟩
      have hchips2 : (h2.getD j2 hbDefault).chips = some v := by
        rw [he2, getD_set_self _ _ _ _ hl2]
      split at h
      · subst h
        exact ⟨len2, hP2⟩
      · rename_i h3 heq3
        obtain ⟨u3, j3, hk3, hb3, hl3, he3⟩ := stmtTempPcb_shape heq3
        have hb3n : boardIndex b hbs.length = Except.ok j3 := by rwa [len2] at hb3
        have hj3 : j3 = j2 := Except.ok.inj (hb3n.symm.trans hb2n)
        subst hj3
        have len3 : h3.length = hbs.length := by rw [he3]; simp [len2]
        have hP3 : PallCS h3 := by
          rw [he3]
          exact pall_set_elem hP2 (updKeeps_chipsSerialSet hk3 _ (pall_getD hP2 j3))
        have hchips3 : (h3.getD j3 hbDefault).chips = some v := by
          rw [he3, getD_set_self _ _ _ _ hl3, (hk3 _).2.1]
          exact hchips2
        split at h
        · subst h
          exact ⟨len3, hP3⟩
        · rename_i h4 heq4
          obtain ⟨u4, j4, hk4, hb4, hl4, he4⟩ := stmtTempChip_shape heq4
          have hb4n : boardIndex b hbs.length = Except.ok j4 := by rwa [len3] at hb4
          have hj4 : j4 = j3 := Except.ok.inj (hb4n.symm.trans hb3n)
          subst hj4
          have len4 : h4.length = hbs.length := by rw [he4]; simp [len3]
          have hP4 : PallCS h4 := by
            rw [he4]
            exact pall_set_elem hP3 (updKeeps_chipsSerialSet hk4 _ (pall_getD hP3 j4))
          have hchips4 : (h4.getD j4 hbDefault).chips = some v := by
            rw [he4, getD_set_self _ _ _ _ hl4, (hk4 _).2.1]
            exact hchips3
          split at h
          · subst h
            exact ⟨len4, hP4⟩
          · rename_i h5 heq5
            obtain ⟨w, j5, hb5, hl5, he5⟩ := stmtSerial_shape heq5
            have hb5n : boardIndex b hbs.length = Except.ok j5 := by rwa [len4] at hb5
            have hj5 : j5 = j4 := Except.ok.inj (hb5n.symm.trans hb4n)
            subst hj5
            have len5 : h5.length = hbs.length := by rw [he5]; simp [len4]
            have hP5 : PallCS h5 := by
              rw [he5]
              refine pall_set_elem hP4 ?_
              intro hm
              exact ⟨((pall_getD hP4 j5) hm).1, rfl⟩
            have hchips5 : (h5.getD j5 hbDefault).chips = some v := by
              rw [he5, getD_set_self _ _ _ _ hl5]
              exact hchips4
            have hser5 : (h5.getD j5 hbDefault).serial_number = some w := by
              rw [he5, getD_set_self _ _ _ _ hl5]
            split at h
            · subst h
              exact ⟨len5, hP5⟩
            · rename_i h6 heq6
              obtain ⟨j6, hb6, hl6, he6⟩ := stmtMissing_shape heq6
              have hb6n : boardIndex b hbs.length = Except.ok j6 := by rwa [len5] at hb6
              have hj6 : j6 = j5 := Except.ok.inj (hb6n.symm.trans hb5n)
              subst hj6
              have len6 : h6.length = hbs.length := by rw [he6]; simp [len5]
              have hP6 : PallCS h6 := by
                intro hb hmem
                rw [he6] at hmem
                rcases List.mem_or_eq_of_mem_set hmem with hmem2 | rfl
                · exact hP5 _ hmem2
                · intro hm
                  constructor
                  · show (h5.getD j6 hbDefault).chips.isSome
                    rw [hchips5]
                    rfl
                  · show (h5.getD j6 hbDefault).serial_number.isSome
                    rw [hser5]
                    rfl
              subst h
              exact ⟨len6, hP6⟩

theorem modernChainLoop_inv :
    ∀ (records : List PyVal) (hbs : List HashBoard), PallCS hbs →
      (modernChainLoop hbs records).state.length = hbs.length ∧
        PallCS (modernChainLoop hbs records).state := by
  intro records
  induction records with
  | nil => exact fun hbs hP => ⟨rfl, hP⟩
  | cons b rest ih =>
    intro hbs hP
    unfold modernChainLoop
    cases e : modernBoardStep hbs b with
    | raised s err =>
      exact modernBoardStep_inv hbs b e hP
    | done s =>
      have hstep := modernBoardStep_inv hbs b e hP
      have hrec := ih s hstep.2
      exact ⟨hrec.1.trans hstep.1, hrec.2⟩

theorem modernGetHashboards_inv {eh : Nat} {ec : Option Int} {tr : Option PyVal}
    {l : List HashBoard} (h : AntminerModern.getHashboards eh ec tr = Except.ok l) :
    l.length = eh ∧ PallCS l := by
  unfold AntminerModern.getHashboards at h
  dsimp only at h
  have hinitP : PallCS ((List.range eh).map
      (fun (idx : Nat) => ({ slot := (idx : Int), expected_chips := ec } : HashBoard))) := by
    intro hb hmem
    rw [List.mem_map] at hmem
    obtain ⟨i, _, rfl⟩ := hmem
    intro hm
    exact nomatch hm
  have hinitLen : ((List.range eh).map
      (fun (idx : Nat) => ({ slot := (idx : Int), expected_chips := ec } : HashBoard))).length = eh := by
    simp
  split at h
  · cases h
    exact ⟨hinitLen, hinitP⟩
  · split at h
    · split at h
      · split at h
        · cases h
          exact ⟨hinitLen, hinitP⟩
        · exact nomatch h
      · rename_i records heq
        split at h
        · rename_i hbs2 heq2
          have hloop := modernChainLoop_inv records _ hinitP
          rw [heq2] at hloop
          cases h
          exact ⟨hloop.1.trans hinitLen, hloop.2⟩
        · rename_i hbs2 err heq2
          split at h
          · have hloop := modernChainLoop_inv records _ hinitP
            rw [heq2] at hloop
            cases h
            exact ⟨hloop.1.trans hinitLen, hloop.2⟩
          · exact nomatch h
    · cases h
      exact ⟨hinitLen, hinitP⟩

/-! ## Invariants of `AntminerOld._get_hashboards` -/

theorem oldBoardStep_ok {stats1 : PyVal} {off : Int} {ec : Option Int} {i : Int}
    {hb : HashBoard} (h : oldBoardStep stats1 off ec i = Except.ok hb) :
    hb.slot = i - off ∧ (hb.missing = false → hb.chips.isSome) := by
  unfold oldBoardStep at h
  split at h
  · exact nomatch h
  · rename_i chip_temp heq1
    split at h
    · exact nomatch h
    · rename_i ctv heq2
      split at h
      · exact nomatch h
      · rename_i temp heq3
        split at h
        · exact nomatch h
        · rename_i tv heq4
          split at h
          · exact nomatch h
          · rename_i hrate heq5
            split at h
            · exact nomatch h
            · rename_i hv heq6
              split at h
              · exact nomatch h
              · rename_i chips heq7
                split at h
                · exact nomatch h
                · rename_i miss heq8
                  cases h
                  refine ⟨rfl, ?_⟩
                  intro hm
                  dsimp only at hm ⊢
                  split at heq8
                  · rename_i htr
                    simp [htr]
                  · rename_i htr
                    cases heq8
                    exact nomatch hm

theorem oldBoardsLoop_inv (stats1 : PyVal) (off : Int) (ec : Option Int) :
    ∀ (ks : List Nat) (hbs : List HashBoard),
      (∀ j, j < hbs.length → (hbs.getD j hbDefault).slot = (j : Int) ∧
        ((hbs.getD j hbDefault).missing = false → (hbs.getD j hbDefault).chips.isSome)) →
      (∀ m, m < ks.length → ks.getD m 0 = hbs.length + m) →
      (oldBoardsLoop stats1 off ec hbs ks).state.length ≤ hbs.length + ks.length ∧
      ∀ j, j < (oldBoardsLoop stats1 off ec hbs ks).state.length →
        ((oldBoardsLoop stats1 off ec hbs ks).state.getD j hbDefault).slot = (j : Int) ∧
        (((oldBoardsLoop stats1 off ec hbs ks).state.getD j hbDefault).missing = false →
          ((oldBoardsLoop stats1 off ec hbs ks).state.getD j hbDefault).chips.isSome) := by
  intro ks
  induction ks with
  | nil =>
    intro hbs hslots hks
    exact ⟨Nat.le_add_right _ _, hslots⟩
  | cons k rest ih =>
    intro hbs hslots hks
    unfold oldBoardsLoop
    cases e : oldBoardStep stats1 off ec (off + (k : Int)) with
    | error err =>
      refine ⟨?_, hslots⟩
      have : hbs.length ≤ hbs.length + (k :: rest).length := Nat.le_add_right _ _
      exact this
    | ok hbnew =>
      obtain ⟨hslot, hchips⟩ := oldBoardStep_ok e
      have hk0 : k = hbs.length := by
        have h0 := hks 0 (by simp)
        simpa using h0
      have hslots2 : ∀ j, j < (hbs ++ [hbnew]).length →
          ((hbs ++ [hbnew]).getD j hbDefault).slot = (j : Int) ∧
          (((hbs ++ [hbnew]).getD j hbDefault).missing = false →
            ((hbs ++ [hbnew]).getD j hbDefault).chips.isSome) := by
        intro j hj
        rw [List.length_append, List.length_singleton] at hj
        by_cases hjl : j < hbs.length
        · have hget : (hbs ++ [hbnew]).getD j hbDefault = hbs.getD j hbDefault := by
            rw [getD_eq_of_lt _ _ (by rw [List.length_append]; omega),
              getD_eq_of_lt _ _ hjl, List.getElem_append_left hjl]
          rw [hget]
          exact hslots j hjl
        · have hj2 : j = hbs.length := by omega
          subst hj2
          have hget : (hbs ++ [hbnew]).getD hbs.length hbDefault = hbnew := by
            rw [getD_eq_of_lt _ _ (by simp), List.getElem_append_right (Nat.le_refl _)]
            simp
          rw [hget]
          constructor
          · rw [hslot, hk0]
            omega
          · exact hchips
      have hks2 : ∀ m, m < rest.length → rest.getD m 0 = (hbs ++ [hbnew]).length + m := by
        intro m hm
        have hm1 := hks (m + 1) (by simp; omega)
        simp only [List.getD_cons_succ] at hm1
        rw [List.length_append, List.length_singleton]
        omega
      have hrec := ih (hbs ++ [hbnew]) hslots2 hks2
      refine ⟨?_, hrec.2⟩
      have hlen := hrec.1
      rw [List.length_append, List.length_singleton] at hlen
      simp only [List.length_cons]
      omega

theorem oldHashboardsBody_inv (stats : PyVal) (eh : Nat) (ec : Option Int) :
    (oldHashboardsBody stats eh ec).state.length ≤ eh ∧
    ∀ j, j < (oldHashboardsBody stats eh ec).state.length →
      ((oldHashboardsBody stats eh ec).state.getD j hbDefault).slot = (j : Int) ∧
      (((oldHashboardsBody stats eh ec).state.getD j hbDefault).missing = false →
        ((oldHashboardsBody stats eh ec).state.getD j hbDefault).chips.isSome) := by
  have hnil : (0 : Nat) ≤ eh ∧ ∀ j, j < ([] : List HashBoard).length →
      (([] : List HashBoard).getD j hbDefault).slot = (j : Int) ∧
      ((([] : List HashBoard).getD j hbDefault).missing = false →
        (([] : List HashBoard).getD j hbDefault).chips.isSome) :=
    ⟨Nat.zero_le _, fun j hj => absurd hj (Nat.not_lt_zero j)⟩
  unfold oldHashboardsBody
  split
  · exact hnil
  · split
    · exact hnil
    · split
      · split
        · exact hnil
        · split
          · exact hnil
          · rename_i stats1 _ _ off _
            have hloop := oldBoardsLoop_inv stats1 off ec (List.range eh) []
              (fun j hj => absurd hj (Nat.not_lt_zero j))
              (by
                intro m hm
                rw [List.length_range] at hm
                rw [getD_eq_of_lt _ _ (by rw [List.length_range]; exact hm),
                  List.getElem_range]
                simp)
            simpa using hloop
      · exact hnil

theorem oldGetHashboards_inv {eh : Nat} {ec : Option Int} {arg : PyVal}
    {tr : Option PyVal} {l : List HashBoard}
    (h : AntminerOld.getHashboards eh ec arg tr = Except.ok l) :
    l.length ≤ eh ∧ ∀ j, j < l.length →
      (l.getD j hbDefault).slot = (j : Int) ∧
      ((l.getD j hbDefault).missing = false → (l.getD j hbDefault).chips.isSome) := by
  unfold AntminerOld.getHashboards at h
  dsimp only at h
  have hbody := oldHashboardsBody_inv (fetchIfFalsy arg tr) eh ec
  split at h
  · split at h
    · rename_i hbs heq
      rw [heq] at hbody
      cases h
      exact hbody
    · rename_i hbs err heq
      split at h
      · rw [heq] at hbody
        cases h
        exact hbody
      · exact nomatch h
  · cases h
    exact ⟨Nat.zero_le _, fun j hj => absurd hj (Nat.not_lt_zero j)⟩

/-! ## Characterisation of the offset scans -/

theorem scanFold_inner (hit : Int → Bool) (c res : Int) (hres : res ≠ -1) :
    ∀ (ps : List Nat) (acc : Int),
      ps.foldl (fun (a : Int) (p : Nat) => if hit (c + (p : Int)) && (a == -1) then res else a) acc
      = if acc = -1 ∧ (ps.any (fun (p : Nat) => hit (c + (p : Int)))) = true then res else acc := by
  intro ps
  induction ps with
  | nil =>
    intro acc
    simp
  | cons p ps ih =>
    intro acc
    rw [List.foldl_cons, ih]
    by_cases hacc : acc = -1
    · subst hacc
      by_cases hp : hit (c + (p : Int)) = true
      · simp [hp, hres]
      · simp [hp]
    · have hbeq : (acc == -1) = false := by simp [hacc]
      simp [hbeq, hacc]

theorem resolveBoardOffsetD_eq (d : List (String × PyVal)) :
    resolveBoardOffsetD d = (firstNonZeroCandidate d "chain_acn" [1, 6, 11] 5).getD 1 := by
  unfold resolveBoardOffsetD firstNonZeroCandidate
  simp only [List.foldl_cons, List.foldl_nil]
  rw [scanFold_inner (probeHit d "chain_acn") 1 1 (by decide),
    scanFold_inner (probeHit d "chain_acn") 6 6 (by decide),
    scanFold_inner (probeHit d "chain_acn") 11 11 (by decide)]
  by_cases h1 : (List.range 5).any (fun (p : Nat) => probeHit d "chain_acn" (1 + (p : Int))) = true <;>
    by_cases h6 : (List.range 5).any (fun (p : Nat) => probeHit d "chain_acn" (6 + (p : Int))) = true <;>
      by_cases h11 : (List.range 5).any (fun (p : Nat) => probeHit d "chain_acn" (11 + (p : Int))) = true <;>
        simp [h1, h6, h11, List.find?]

theorem resolveFanOffsetD_eq (d : List (String × PyVal)) :
    resolveFanOffsetD d = (match firstNonZeroCandidate d "fan" [1, 5] 4 with
      | some c => c + 2
      | Option.none => 3) := by
  unfold resolveFanOffsetD firstNonZeroCandidate
  simp only [List.foldl_cons, List.foldl_nil]
  rw [scanFold_inner (probeHit d "fan") 1 (1 + 2) (by decide),
    scanFold_inner (probeHit d "fan") 5 (5 + 2) (by decide)]
  by_cases h1 : (List.range 4).any (fun (p : Nat) => probeHit d "fan" (1 + (p : Int))) = true <;>
    by_cases h5 : (List.range 4).any (fun (p : Nat) => probeHit d "fan" (5 + (p : Int))) = true <;>
      simp [h1, h5, List.find?]

/-! ## The expected-hashrate conversion table -/

/-- A stats payload whose `STATS[1]` entry carries `total_rateideal = v` and
`rate_unit = u`. -/
def mkStatsUnit (v : ℚ) (u : String) : PyVal :=
  PyVal.dict [("STATS", PyVal.list [PyVal.none,
    PyVal.dict [("total_rateideal", PyVal.num v), ("rate_unit", PyVal.str u)]])]

theorem getExpectedHashrate_table (v : ℚ) (u : String) :
    AntminerModern.getExpectedHashrate (mkStatsUnit v u) Option.none =
      Except.ok (some (if u = "GH" then pyRound2 (v / 1000)
        else if u = "MH" then pyRound2 (v / 1000000) else pyRound2 v)) := by
  by_cases hG : u = "GH"
  · subst hG
    rfl
  · by_cases hM : u = "MH"
    · subst hM
      rfl
    · have h1 : (u == "GH") = false := by
        simp [hG]
      have h2 : (u == "MH") = false := by
        simp [hM]
      simp [AntminerModern.getExpectedHashrate, mkStatsUnit, fetchIfFalsy, pyTruthy,
        pySub, dictLookup, pyListIdx, pyNormIdx, pyEqStr, pyNumVal, h1, h2, hG, hM]

/-! ## Fault-light state machine facts -/

/-- Claim C9 (confirmed): for the Modern dialect, after `fault_light_on`
receives a response whose body carries the sentinel `code = "B000"`, the
cached light state is `True`, and every subsequent `_get_fault_light` read
short-circuits: it returns `True` without issuing any blink-status query;
a response (dict) lacking the sentinel leaves the prior cached state
unchanged and raises no exception. -/
theorem c9_fault_light (light : PyVal) (kvs : List (String × PyVal)) :
    (dictLookup kvs "code" = some (PyVal.str "B000") →
      AntminerModern.faultLightOn light (some (PyVal.dict kvs)) = Except.ok (PyVal.bool true) ∧
      ∀ (arg : PyVal) (tr : Option PyVal),
        AntminerModern.getFaultLight (PyVal.bool true) arg tr =
          Except.ok (PyVal.bool true, PyVal.bool true, false)) ∧
    (dictLookup kvs "code" ≠ some (PyVal.str "B000") →
      AntminerModern.faultLightOn light (some (PyVal.dict kvs)) = Except.ok light) := by
  constructor
  · intro hcode
    have hne : kvs ≠ [] := by
      intro he
      subst he
      exact nomatch hcode
    have htr : pyTruthy (PyVal.dict kvs) = true := by
      simp [pyTruthy, hne]
    constructor
    · simp [AntminerModern.faultLightOn, htr, pyGet, hcode, pyEqStr]
    · intro arg tr
      simp [AntminerModern.getFaultLight, pyTruthy]
  · intro hcode
    by_cases hne : kvs = []
    · subst hne
      simp [AntminerModern.faultLightOn, pyTruthy]
    · have htr : pyTruthy (PyVal.dict kvs) = true := by
        simp [pyTruthy, hne]
      simp only [AntminerModern.faultLightOn, htr, if_true, pyGet]
      cases hl : dictLookup kvs "code" with
      | none =>
        simp [pyEqStr]
      | some w =>
        cases w with
        | str t =>
          have ht : (t == "B000") = false := by
            simp only [beq_eq_false_iff_ne]
            intro he
            subst he
            exact hcode hl
          simp [pyEqStr, ht]
        | none => simp [pyEqStr]
        | bool b => simp [pyEqStr]
        | num q => simp [pyEqStr]
        | list xs => simp [pyEqStr]
        | dict kvs2 => simp [pyEqStr]

/-! ## Extractor defaults and the unguarded MAC fallback -/

/-- Claim C2 (corrected): the cited extractors revert to their documented
default (`None`) when no payload is available or the probed key is absent —
`AntminerOld._is_mining` with every transport failing returns `None`, and
`AntminerModern._get_mac` returns `None` when the network-info payload lacks
`macaddr` — but when `AntminerModern._get_mac` falls back to its
`get_network_info` call and that call raises `APIError`, the error
propagates out of the extractor (the guard there catches only `KeyError`). -/
theorem c2_extractor_defaults_amended :
    (AntminerOld.isMining PyVal.none Option.none Option.none = Except.ok PyVal.none) ∧
    (∀ kvs : List (String × PyVal), dictLookup kvs "macaddr" = Option.none →
      AntminerModern.getMac PyVal.none Option.none (some (PyVal.dict kvs)) =
        Except.ok PyVal.none) ∧
    (AntminerModern.getMac PyVal.none Option.none Option.none =
      Except.error PyErr.apiError) := by
  refine ⟨rfl, ?_, rfl⟩
  intro kvs hk
  by_cases hne : kvs = []
  · subst hne
    rfl
  · have htr : pyTruthy (PyVal.dict kvs) = true := by
      simp [pyTruthy, hne]
    simp [AntminerModern.getMac, fetchIfFalsy, pyTruthy, htr, pySub, hk]

/-! ## Concrete payload fixtures -/

/-- The chain record of the spec's Modern end-to-end scenario. -/
def c3rec : PyVal := PyVal.dict
  [("index", PyVal.num 0), ("rate_real", PyVal.num 15000), ("asic_num", PyVal.num 80),
   ("temp_pcb", PyVal.list [PyVal.num 0, PyVal.num 55, PyVal.num 57, PyVal.num 0]),
   ("temp_chip", PyVal.list [PyVal.num 0, PyVal.num 70, PyVal.num 71, PyVal.num 0]),
   ("sn", PyVal.str "ABC123")]

/-- Modern stats payload holding a single chain record (`c3rec`). -/
def c3stats : PyVal := PyVal.dict
  [("STATS", PyVal.list [PyVal.dict [("chain", PyVal.list [c3rec])]])]

/-- The boards the Modern extraction produces from `c3stats` with
`expected_hashboards = 3, expected_chips = 80`: slot 0 fully populated and
non-missing, slots 1 and 2 default and missing. -/
def c3expected : List HashBoard :=
  [{ slot := 0, chips := some (PyVal.num 80), expected_chips := some 80,
     hashrate := some 15, temp := some 56, chip_temp := some (141 / 2),
     serial_number := some (PyVal.str "ABC123"), missing := false },
   { slot := 1, expected_chips := some 80 },
   { slot := 2, expected_chips := some 80 }]

/-- Like `c3rec` but with an all-zero `temp_pcb` sensor array. -/
def c8rec : PyVal := PyVal.dict
  [("index", PyVal.num 0), ("rate_real", PyVal.num 15000), ("asic_num", PyVal.num 80),
   ("temp_pcb", PyVal.list [PyVal.num 0, PyVal.num 0, PyVal.num 0, PyVal.num 0]),
   ("temp_chip", PyVal.list [PyVal.num 0, PyVal.num 70, PyVal.num 71, PyVal.num 0]),
   ("sn", PyVal.str "ABC123")]

/-- Modern stats payload whose only chain record has all-zero `temp_pcb`. -/
def c8stats : PyVal := PyVal.dict
  [("STATS", PyVal.list [PyVal.dict [("chain", PyVal.list [c8rec])]])]

/-- Like `c3rec` but with no `sn` key. -/
def c7rec : PyVal := PyVal.dict
  [("index", PyVal.num 0), ("rate_real", PyVal.num 15000), ("asic_num", PyVal.num 80),
   ("temp_pcb", PyVal.list [PyVal.num 0, PyVal.num 55, PyVal.num 57, PyVal.num 0]),
   ("temp_chip", PyVal.list [PyVal.num 0, PyVal.num 70, PyVal.num 71, PyVal.num 0])]

/-- Modern stats payload whose only chain record lacks the `sn` key. -/
def c7stats : PyVal := PyVal.dict
  [("STATS", PyVal.list [PyVal.dict [("chain", PyVal.list [c7rec])]])]

/-- What the Modern extraction produces from `c7stats`: slot 0 has its chip
count stored (`asic_num` was read successfully) yet stays `missing = true`
because the later `sn` lookup raised before `missing` was cleared. -/
def c7expected : List HashBoard :=
  [{ slot := 0, chips := some (PyVal.num 80), expected_chips := some 80,
     hashrate := some 15, temp := some 56, chip_temp := some (141 / 2),
     serial_number := Option.none, missing := true },
   { slot := 1, expected_chips := some 80 },
   { slot := 2, expected_chips := some 80 }]

/-- Legacy flat `STATS[1]` mapping whose only non-zero `chain_acn` keys are
the group at suffixes 11, 12, 13. -/
def c5stats1 : List (String × PyVal) :=
  [("chain_acn11", PyVal.num 60), ("chain_acn12", PyVal.num 61), ("chain_acn13", PyVal.num 62)]

/-- Legacy stats payload wrapping `c5stats1`. -/
def c5stats : PyVal := PyVal.dict [("STATS", PyVal.list [PyVal.none, PyVal.dict c5stats1])]

/-- Legacy extraction of `c5stats` with `expected_hashboards = 3`: exactly
the three entries at key suffixes 11, 12, 13, renumbered to slots 0, 1, 2. -/
def c5expected : List HashBoard :=
  [{ slot := 0, chips := some (PyVal.num 60), missing := false },
   { slot := 1, chips := some (PyVal.num 61), missing := false },
   { slot := 2, chips := some (PyVal.num 62), missing := false }]

/-- A flat mapping in which every probed key is zero or absent. -/
def cAllZero : List (String × PyVal) :=
  [("chain_acn1", PyVal.num 0), ("fan1", PyVal.num 0)]

/-- Legacy stats payload with `fan1` non-zero (a probe hit at candidate 1)
and actual fan speeds under `fan3`, `fan4`. -/
def c4fanStats : PyVal := PyVal.dict [("STATS", PyVal.list [PyVal.none,
  PyVal.dict [("fan1", PyVal.num 5000), ("fan3", PyVal.num 1111), ("fan4", PyVal.num 2222)]])]

/-- The default board list built by `AntminerModern._get_hashboards` for
`expected_hashboards = 3, expected_chips = 80`. -/
def mBoards3 : List HashBoard :=
  (List.range 3).map (fun (idx : Nat) => { slot := (idx : Int), expected_chips := some 80 })

/-! ## Claim theorems -/

/-- Claim C1 (corrected): for the Modern dialect the HASHBOARDS extraction,
whenever it returns at all, returns exactly `expected_hashboards` entries and
every entry with `missing = false` has its chip count stored; for the Legacy
dialect the extraction may return fewer entries — at most
`expected_hashboards`, and an empty sequence on transport failure — again
with `missing = false` only for entries whose chip count was stored. -/
theorem c1_hashboards_length_amended :
    (∀ (eh : Nat) (ec : Option Int) (tr : Option PyVal) (l : List HashBoard),
      AntminerModern.getHashboards eh ec tr = Except.ok l →
      l.length = eh ∧ ∀ j, j < l.length →
        ((l.getD j hbDefault).missing = false → (l.getD j hbDefault).chips.isSome)) ∧
    (∀ (eh : Nat) (ec : Option Int) (arg : PyVal) (tr : Option PyVal) (l : List HashBoard),
      AntminerOld.getHashboards eh ec arg tr = Except.ok l →
      l.length ≤ eh ∧ ∀ j, j < l.length →
        ((l.getD j hbDefault).missing = false → (l.getD j hbDefault).chips.isSome)) := by
  constructor
  · intro eh ec tr l h
    have hinv := modernGetHashboards_inv h
    refine ⟨hinv.1, ?_⟩
    intro j hj hmiss
    exact ((hinv.2 _ (getD_mem hbDefault hj)) hmiss).1
  · intro eh ec arg tr l h
    have hinv := oldGetHashboards_inv h
    exact ⟨hinv.1, fun j hj => (hinv.2 j hj).2⟩

/-- Claim C1, counterexample: with `expected_hashboards = 3`, the Legacy
extraction returns an empty sequence (not 3 entries) when the stats
transport call fails. -/
theorem c1_hashboards_length_counterexample :
    AntminerOld.getHashboards 3 (some 80) PyVal.none Option.none =
      Except.ok ([] : List HashBoard) ∧
    ¬ (([] : List HashBoard).length = 3) := by
  exact ⟨rfl, by decide⟩

/-- Claim C1, witness for the amended theorem at concrete inputs. -/
theorem c1_hashboards_length_witness :
    mBoards3.length = 3 ∧ ([] : List HashBoard).length ≤ 3 :=
  ⟨(c1_hashboards_length_amended.1 3 (some 80) Option.none mBoards3 rfl).1,
   (c1_hashboards_length_amended.2 3 (some 80) PyVal.none Option.none [] rfl).1⟩

/-- Claim C2, counterexample: `AntminerModern._get_mac` invoked with no
payload and with both of its transport calls failing does not return the
documented default — it raises `APIError`. -/
theorem c2_extractor_defaults_counterexample :
    AntminerModern.getMac PyVal.none Option.none Option.none =
      Except.error PyErr.apiError ∧
    ¬ (AntminerModern.getMac PyVal.none Option.none Option.none =
      Except.ok PyVal.none) := by
  refine ⟨rfl, ?_⟩
  intro h
  exact nomatch h

/-- Claim C2, witness for the amended theorem at a concrete malformed
payload (a network-info dict without the `macaddr` key). -/
theorem c2_extractor_defaults_witness :
    AntminerModern.getMac PyVal.none Option.none
      (some (PyVal.dict [("hostname", PyVal.str "miner")])) = Except.ok PyVal.none :=
  c2_extractor_defaults_amended.2.1 [("hostname", PyVal.str "miner")] rfl

/-- Claim C3 (confirmed): the Modern end-to-end scenario — one chain record
`{index: 0, rate_real: 15000, asic_num: 80, temp_pcb: [0,55,57,0],
temp_chip: [0,70,71,0], sn: "ABC123"}` with `expected_hashboards = 3`,
`expected_chips = 80` — yields a 3-element sequence whose slot 0 has
`hashrate = 15.0, chips = 80, temp = 56.0, chip_temp = 70.5,
serial_number = "ABC123", missing = false`, while slots 1 and 2 stay at
their defaults with `missing = true`. -/
theorem c3_modern_end_to_end :
    AntminerModern.getHashboards 3 (some 80) (some c3stats) = Except.ok c3expected := by
  with_unfolding_all rfl

/-- Claim C4 (corrected): both legacy resolvers scan their fixed candidates
in order and the first candidate with a truthy non-zero probe wins, but only
the board resolver uses that candidate itself as the extraction offset
(default 1); the fan resolver uses the winning candidate plus 2
(default 3). -/
theorem c4_offset_resolver_amended (d : List (String × PyVal)) :
    resolveBoardOffsetD d = (firstNonZeroCandidate d "chain_acn" [1, 6, 11] 5).getD 1 ∧
    resolveFanOffsetD d = (match firstNonZeroCandidate d "fan" [1, 5] 4 with
      | some c => c + 2
      | Option.none => 3) :=
  ⟨resolveBoardOffsetD_eq d, resolveFanOffsetD_eq d⟩

/-- Claim C4, counterexample: with `fan1` non-zero the first (and winning)
candidate is 1, yet the offset used for extraction is 3, and the extracted
fan speeds are read from `fan3`, `fan4` — not from the candidate offset. -/
theorem c4_offset_resolver_counterexample :
    resolveFanOffsetD [("fan1", PyVal.num 5000)] = 3 ∧
    ¬ ((3 : Int) = 1) ∧
    AntminerOld.getFans 2 c4fanStats Option.none =
      Except.ok [{ speed := PyVal.num 1111 }, { speed := PyVal.num 2222 }] := by
  refine ⟨by with_unfolding_all rfl, by decide, by with_unfolding_all rfl⟩

/-- Claim C5 (confirmed): on a flat response whose only non-zero
`chain_acn` group starts at suffix 11 the Legacy board extraction resolves
offset 11 and reads exactly the three entries at suffixes 11, 12, 13; on an
all-zero response the board resolver falls back to offset 1 and the fan
resolver to offset 3. -/
theorem c5_offset_resolution :
    AntminerOld.getHashboards 3 Option.none c5stats Option.none = Except.ok c5expected ∧
    resolveBoardOffsetD c5stats1 = 11 ∧
    resolveBoardOffsetD cAllZero = 1 ∧
    resolveFanOffsetD cAllZero = 3 := by
  refine ⟨by with_unfolding_all rfl, by with_unfolding_all rfl,
    by with_unfolding_all rfl, by with_unfolding_all rfl⟩

/-- Claim C6 (confirmed): the expected-hashrate extraction converts
`(value, unit)` by the uniform table — `"GH"` gives `round(value/1000, 2)`,
`"MH"` gives `round(value/1000000, 2)`, any other unit passes through as
`round(value, 2)` — and in particular `(15000, "GH") ↦ 15.0`,
`(15000000, "MH") ↦ 15.0`, `(15000, "unknown") ↦ 15000.0`. -/
theorem c6_hashrate_conversion :
    (∀ (v : ℚ) (u : String),
      AntminerModern.getExpectedHashrate (mkStatsUnit v u) Option.none =
        Except.ok (some (if u = "GH" then pyRound2 (v / 1000)
          else if u = "MH" then pyRound2 (v / 1000000) else pyRound2 v))) ∧
    AntminerModern.getExpectedHashrate (mkStatsUnit 15000 "GH") Option.none =
      Except.ok (some 15) ∧
    AntminerModern.getExpectedHashrate (mkStatsUnit 15000000 "MH") Option.none =
      Except.ok (some 15) ∧
    AntminerModern.getExpectedHashrate (mkStatsUnit 15000 "unknown") Option.none =
      Except.ok (some 15000) :=
  ⟨getExpectedHashrate_table, by with_unfolding_all rfl, by with_unfolding_all rfl,
    by with_unfolding_all rfl⟩

/-- Claim C7 (corrected): in the Modern extractor a board is marked
non-missing only after every per-board field of its chain record — the
hashrate, chip count, both temperature averages and the serial number — has
been read successfully: `missing = false` implies both the chip count and
the serial number were stored, so chip-count success alone does not clear
`missing`. -/
theorem c7_nonmissing_amended :
    ∀ (eh : Nat) (ec : Option Int) (tr : Option PyVal) (l : List HashBoard),
      AntminerModern.getHashboards eh ec tr = Except.ok l →
      ∀ j, j < l.length → (l.getD j hbDefault).missing = false →
        (l.getD j hbDefault).chips.isSome ∧ (l.getD j hbDefault).serial_number.isSome := by
  intro eh ec tr l h j hj hmiss
  exact (modernGetHashboards_inv h).2 _ (getD_mem hbDefault hj) hmiss

/-- Claim C7, counterexample: on a record whose `asic_num` is read
successfully but which lacks `sn`, the board keeps `missing = true` even
though its chip count was stored — reading the chip count alone does not
mark the board non-missing. -/
theorem c7_nonmissing_counterexample :
    AntminerModern.getHashboards 3 (some 80) (some c7stats) = Except.ok c7expected ∧
    (c7expected.getD 0 hbDefault).chips = some (PyVal.num 80) ∧
    (c7expected.getD 0 hbDefault).missing = true := by
  refine ⟨by with_unfolding_all rfl, rfl, rfl⟩

/-- Claim C7, witness for the amended theorem on a fully-populated record
(slot 0 of the `c3stats` extraction is non-missing). -/
theorem c7_nonmissing_witness :
    (c3expected.getD 0 hbDefault).chips.isSome ∧
    (c3expected.getD 0 hbDefault).serial_number.isSome :=
  c7_nonmissing_amended 3 (some 80) (some c3stats) c3expected
    (by with_unfolding_all rfl) 0 (by decide) rfl

/-- Claim C8 (code bug): a Modern stats payload whose chain record has an
all-zero `temp_pcb` array makes the extraction divide by zero — the
`except LookupError` guard does not catch `ZeroDivisionError`, so the
extraction raises instead of returning a hashboard sequence. -/
theorem c8_all_zero_temps_crash :
    AntminerModern.getHashboards 3 (some 80) (some c8stats) =
      Except.error PyErr.zeroDivisionError := by
  with_unfolding_all rfl

/-- Claim C10 (confirmed): whenever the Legacy hashboard extraction returns
boards, they carry consecutive slot numbers 0, 1, ..., len-1 — the slot is
the position relative to the resolved offset, never the raw key suffix. -/
theorem c10_slot_numbering :
    ∀ (eh : Nat) (ec : Option Int) (arg : PyVal) (tr : Option PyVal) (l : List HashBoard),
      AntminerOld.getHashboards eh ec arg tr = Except.ok l →
      ∀ j, j < l.length → (l.getD j hbDefault).slot = (j : Int) := by
  intro eh ec arg tr l h j hj
  exact ((oldGetHashboards_inv h).2 j hj).1

/-- Claim C10, witness: the boards extracted at resolved offset 11 carry
slots 0 and 1 at positions 0 and 1. -/
theorem c10_slot_numbering_witness :
    (c5expected.getD 0 hbDefault).slot = (0 : Int) ∧
    (c5expected.getD 1 hbDefault).slot = (1 : Int) :=
  ⟨c10_slot_numbering 3 Option.none c5stats Option.none c5expected
      (by with_unfolding_all rfl) 0 (by decide),
   c10_slot_numbering 3 Option.none c5stats Option.none c5expected
      (by with_unfolding_all rfl) 1 (by decide)⟩

/-- Claim C9, witness: a confirming `B000` response flips the cached light,
the subsequent read short-circuits without querying, and a `B100` response
leaves the prior (unset) state unchanged. -/
theorem c9_fault_light_witness :
    AntminerModern.faultLightOn PyVal.none
      (some (PyVal.dict [("code", PyVal.str "B000")])) = Except.ok (PyVal.bool true) ∧
    AntminerModern.getFaultLight (PyVal.bool true) PyVal.none Option.none =
      Except.ok (PyVal.bool true, PyVal.bool true, false) ∧
    AntminerModern.faultLightOn PyVal.none
      (some (PyVal.dict [("code", PyVal.str "B100")])) = Except.ok PyVal.none := by
  have h1 := c9_fault_light PyVal.none [("code", PyVal.str "B000")]
  have h2 := c9_fault_light PyVal.none [("code", PyVal.str "B100")]
  refine ⟨(h1.1 rfl).1, (h1.1 rfl).2 PyVal.none Option.none, h2.2 ?_⟩
  intro he
  have hv : PyVal.str "B100" = PyVal.str "B000" := Option.some.inj (by
    rw [show dictLookup [("code", PyVal.str "B100")] "code" =
      some (PyVal.str "B100") from rfl] at he
    exact he)
  have : ("B100" : String) = "B000" := PyVal.str.inj hv
  exact absurd this (by decide)

end Pyasic
